import Mathlib

/-!
Verification of the browser-side quiz UI (src/script.js).

The file shallowly embeds the two page controllers of `script.js`:

* the quiz controller (`initQuizPage`, `renderQuestion`, `submitQuiz`,
  `startTimer`, `updateTimerDisplay`) as an explicit state machine
  `QuizState` driven by an event `step` function, where every network
  request to `/submit` is logged in a ghost field `submissions`, and

* the admin table controller's inline-edit Save handler (`saveEdit`) and
  the option-cell rendering / re-parsing pair (`renderOptionsCell`,
  `extractOptionsFromHtml`).

JavaScript primitives that the code relies on (`String.prototype.trim`,
`replaceAll`, `padStart`, truthiness of strings, `Math.floor` division
and `%` on numbers, regex splitting for the two concrete patterns
appearing in the source) are modelled explicitly below; machine numbers
in this code never approach the 2^53 float-integer boundary, so Nat/Int
arithmetic is exact.
-/

namespace QuizApp

set_option maxRecDepth 4096

/-! ## JavaScript string primitives -/

/-- The whitespace characters relevant to this program for JS `\s` and
`String.prototype.trim` (ASCII subset; the source never produces other
whitespace). -/
def isJsWs (c : Char) : Bool :=
  c = ' ' ∨ c = '\t' ∨ c = '\n' ∨ c = '\r' ∨ c = '\x0b' ∨ c = '\x0c'

/-- JS `String.prototype.trim`: strip leading and trailing whitespace. -/
def jsTrim (s : String) : String :=
  ⟨((s.data.dropWhile isJsWs).reverse.dropWhile isJsWs).reverse⟩

/-- Core of JS `String.prototype.replaceAll` on character lists: scan left
to right, replacing each non-overlapping occurrence of `pat` (non-empty)
by `rep`; replacements are not re-scanned.  Fuel-based so that it reduces
definitionally. -/
def replaceAllCore : Nat → List Char → List Char → List Char → List Char
  | 0, _, _, _ => []
  | _ + 1, [], _, _ => []
  | fuel + 1, c :: rest, pat, rep =>
    if pat ≠ [] ∧ List.take pat.length (c :: rest) = pat then
      rep ++ replaceAllCore fuel (List.drop pat.length (c :: rest)) pat rep
    else
      c :: replaceAllCore fuel rest pat rep

/-- JS `String.prototype.replaceAll` for a non-empty pattern. -/
def jsReplaceAll (s pat rep : String) : String :=
  ⟨replaceAllCore (s.data.length + 1) s.data pat.data rep.data⟩

/-- JS `String.prototype.padStart(len, c)`. -/
def padStart (s : String) (len : Nat) (c : Char) : String :=
  ⟨List.replicate (len - s.data.length) c ++ s.data⟩

/-! ## formatDuration (script.js lines 388-393) -/

/-- `formatDuration` from script.js: `h = Math.floor(totalSec/3600)`,
`m = Math.floor((totalSec%3600)/60)`, `s = totalSec%60`, rendered as
`H:MM:SS` when `h > 0` and `M:SS` otherwise.  JS `Math.floor(a/b)` on
integers is floor division (`Int.fdiv`) and JS `%` is the
truncating remainder (`Int.tmod`). -/
def formatDuration (totalSec : Int) : String :=
  let h := Int.fdiv totalSec 3600
  let m := Int.fdiv (Int.tmod totalSec 3600) 60
  let s := Int.tmod totalSec 60
  if 0 < h then
    toString h ++ ":" ++ padStart (toString m) 2 '0' ++ ":" ++ padStart (toString s) 2 '0'
  else
    toString m ++ ":" ++ padStart (toString s) 2 '0'

/-- Two-digit zero-padded decimal rendering, written from the spec's words
("seconds zero-padded to 2 digits") for comparison with the source's
`padStart`-based rendering. -/
def twoDigits (n : Nat) : String :=
  if n < 10 then "0" ++ toString n else toString n

/-- Timer display format as the spec describes it: `M:SS` (minutes
unpadded, seconds two-digit) when the hour component is zero, and
`H:MM:SS` (hours unpadded, minutes and seconds two-digit) when it is
non-zero. -/
def specTimerFormat (n : Nat) : String :=
  let h := n / 3600
  let m := n % 3600 / 60
  let s := n % 60
  if h = 0 then
    toString m ++ ":" ++ twoDigits s
  else
    toString h ++ ":" ++ twoDigits m ++ ":" ++ twoDigits s

theorem fdiv_ofNat (m n : Nat) : Int.fdiv (Int.ofNat m) (Int.ofNat n) = Int.ofNat (m / n) := by
  cases m <;> simp [Int.fdiv]

theorem tmod_ofNat (m n : Nat) : Int.tmod (Int.ofNat m) (Int.ofNat n) = Int.ofNat (m % n) := rfl

theorem padStart_eq_twoDigits : ∀ k < 100, padStart (toString k) 2 '0' = twoDigits k := by
  decide

theorem string_append_data (a b : String) : (a ++ b).data = a.data ++ b.data := rfl

/-- C9: for every non-negative remaining value the source formatter agrees
with the spec's `M:SS` / `H:MM:SS` description, and the two examples named
by the spec evaluate as stated. -/
theorem formatDuration_matches_spec :
    (∀ n : Nat, formatDuration (Int.ofNat n) = specTimerFormat n) ∧
    formatDuration 45 = "0:45" ∧ formatDuration 3661 = "1:01:01" := by
  refine ⟨?_, by decide, by decide⟩
  intro n
  have hm : n % 3600 / 60 < 100 := by omega
  have hs : n % 60 < 100 := by omega
  have hh : n / 3600 < 100 ∨ 100 ≤ n / 3600 := by omega
  have e1 : (3600 : Int) = Int.ofNat 3600 := rfl
  have e2 : (60 : Int) = Int.ofNat 60 := rfl
  have htos : ∀ m : Nat, toString (Int.ofNat m) = toString m := fun _ => rfl
  unfold formatDuration specTimerFormat
  simp only [e1, e2, fdiv_ofNat, tmod_ofNat, htos]
  rw [padStart_eq_twoDigits _ hm, padStart_eq_twoDigits _ hs]
  rcases Nat.eq_zero_or_pos (n / 3600) with h0 | h0
  · rw [if_neg (by rw [h0]; decide), if_pos h0]
  · rw [if_pos (show 0 < Int.ofNat (n / 3600) by
        rw [Int.ofNat_eq_natCast]; exact_mod_cast h0), if_neg (by omega)]

/-! ## Quiz page controller (script.js lines 11-136)

The controller is embedded as a state machine: `QuizState` carries the
script's mutable variables (`questions`, `currentIndex`, `answers`,
`timerSeconds`), the parts of the DOM the script reads or writes (the
nav-button visibility/disabled flags, the question-area placeholder, the
timer element's text and urgent styling), and ghost fields recording the
observable outputs (`submissions` logs every POST to `/submit`,
`tickSubmits` counts the ones triggered by timer expiry, `lastShown` is
the numeric value most recently rendered into the timer element).
`step` dispatches the events that can reach the page: resolution of the
one question fetch, clicks on the three buttons, selecting a radio
option, and a timer interval tick. -/

/-- A question as consumed by the quiz page: `{id, question, options}`. -/
structure Question where
  id : Nat
  question : String
  options : List String
deriving DecidableEq, Repr

/-- Load phase of the quiz page: before the fetch resolves, after a
successful non-empty load, or after the terminal "cannot load" render. -/
inductive Phase
  | loading
  | active
  | errorState
deriving DecidableEq, Repr

/-- Body of a POST to `/submit`: `{quiz_id, answers: {questionId: optionText}}`. -/
structure Payload where
  quiz_id : String
  answers : List (String × String)
deriving DecidableEq, Repr

structure QuizState where
  quizId : String
  questions : List Question
  currentIndex : Nat
  answers : List (Nat × String)
  timerSeconds : Int
  timerActive : Bool
  phase : Phase
  prevDisabled : Bool
  nextVisible : Bool
  submitVisible : Bool
  placeholder : Bool
  displayText : Option String
  lastShown : Option Int
  urgent : Bool
  submissions : List Payload
  tickSubmits : Nat
deriving DecidableEq, Repr

/-- Events that can reach the quiz controller: the fetch promise resolving
(`fetchOk d` carries the response's `questions` field, `none` when absent
or malformed), the fetch failing, button clicks, a radio-option change,
and one tick of the 1-second interval. -/
inductive Event
  | fetchOk (d : Option (List Question))
  | fetchFail
  | clickPrev
  | clickNext
  | clickSubmit
  | select (v : String)
  | tick
deriving DecidableEq, Repr

/-- Lookup in the `answers` object (`answers[q.id]`); `none` is JS
`undefined`. -/
def lookupAnswer : List (Nat × String) → Nat → Option String
  | [], _ => none
  | (k, v) :: rest, id => if k = id then some v else lookupAnswer rest id

/-- JS object property assignment `obj[k] = v`: overwrite an existing key
in place, else append. -/
def objInsert : List (String × String) → String → String → List (String × String)
  | [], k, v => [(k, v)]
  | (k0, v0) :: rest, k, v =>
    if k0 = k then (k0, v) :: rest else (k0, v0) :: objInsert rest k v

/-- The `answers` object built by `submitQuiz` (lines 96-99): for each
question in order, `if (answers[q.id]) payload.answers[String(q.id)] =
answers[q.id]` — JS truthiness skips both a missing and an empty-string
selection. -/
def payloadAnswers (questions : List Question) (answers : List (Nat × String)) :
    List (String × String) :=
  questions.foldl
    (fun acc q =>
      match lookupAnswer answers q.id with
      | some v => if v = "" then acc else objInsert acc (toString q.id) v
      | none => acc)
    []

/-- `submitQuiz` (lines 95-113): build the payload and POST it to
`/submit`.  The request is recorded in `submissions`; the response
handling (redirect or alert) does not touch the session state. -/
def submitQuiz (s : QuizState) : QuizState :=
  { s with submissions :=
      s.submissions ++ [⟨s.quizId, payloadAnswers s.questions s.answers⟩] }

/-- The DOM writes of `renderQuestion` (lines 45-77) that later behavior
depends on: nothing when the current question is missing (`if (!q)
return`), else the question markup replaces any placeholder, Previous is
disabled exactly at index 0, Next is shown exactly before the last index,
and Submit is shown exactly at the last index. -/
def renderQuestion (s : QuizState) : QuizState :=
  match s.questions.get? s.currentIndex with
  | none => s
  | some _ =>
    { s with
      placeholder := false
      prevDisabled := decide (s.currentIndex = 0)
      nextVisible := decide (s.currentIndex + 1 < s.questions.length)
      submitVisible := decide (s.currentIndex = s.questions.length - 1) }

/-- The radio pre-selection computed by `renderQuestion` line 49/58:
`selected = answers[q.id] || null`, so an empty-string selection is
replaced by `null`; a radio is rendered checked iff `selected === opt`. -/
def selectedOf (s : QuizState) : Option String :=
  match s.questions.get? s.currentIndex with
  | none => none
  | some q =>
    match lookupAnswer s.answers q.id with
    | none => none
    | some v => if v = "" then none else some v

/-- Whether the radio for option text `opt` of the current question is
rendered checked. -/
def radioChecked (s : QuizState) (opt : String) : Bool :=
  selectedOf s == some opt

/-- `updateTimerDisplay` (lines 128-135): write the formatted remaining
time into the timer element and, when below 30 seconds, apply the urgent
styling; there is no branch that ever removes the styling. -/
def updateTimerDisplay (s : QuizState) : QuizState :=
  { s with
    displayText := some (formatDuration s.timerSeconds)
    lastShown := some s.timerSeconds
    urgent := if s.timerSeconds < 30 then true else s.urgent }

/-- `startTimer` (lines 115-126): an immediate display update, then the
1-second interval is installed. -/
def startTimer (s : QuizState) : QuizState :=
  { updateTimerDisplay s with timerActive := true }

/-- One interval callback (lines 117-125): if the interval is still
installed, decrement; at zero or below clear the interval and submit
(with no display update), otherwise update the display. -/
def tickStep (s : QuizState) : QuizState :=
  if s.timerActive then
    let s1 := { s with timerSeconds := s.timerSeconds - 1 }
    if s1.timerSeconds ≤ 0 then
      submitQuiz { s1 with timerActive := false, tickSubmits := s1.tickSubmits + 1 }
    else
      updateTimerDisplay s1
  else s

/-- Event dispatch.  Fetch events fire only while loading (the single
fetch resolves once).  The click handlers are exactly the source's: the
Previous/Next handlers carry their own index guards, the Submit handler
has no guard at all but the browser only delivers clicks to the button
while it is displayed (`submitVisible`).  A radio can only be changed
when the current question's options are rendered, i.e. in the active
phase. -/
def step (e : Event) (s : QuizState) : QuizState :=
  match e with
  | .fetchOk d =>
    if s.phase = .loading then
      let qs := d.getD []
      if qs.isEmpty then
        { s with questions := qs, placeholder := true, phase := .errorState }
      else
        startTimer (renderQuestion { s with questions := qs, phase := .active })
    else s
  | .fetchFail =>
    if s.phase = .loading then
      { s with placeholder := true, phase := .errorState }
    else s
  | .clickPrev =>
    if 0 < s.currentIndex then
      renderQuestion { s with currentIndex := s.currentIndex - 1 }
    else s
  | .clickNext =>
    if s.currentIndex + 1 < s.questions.length then
      renderQuestion { s with currentIndex := s.currentIndex + 1 }
    else s
  | .clickSubmit =>
    if s.submitVisible then submitQuiz s else s
  | .select v =>
    if s.phase = .active then
      match s.questions.get? s.currentIndex with
      | some q => if v ∈ q.options then { s with answers := (q.id, v) :: s.answers } else s
      | none => s
    else s
  | .tick => tickStep s

/-- `initQuizPage` (lines 11-43), synchronous part: bail out when the quiz
identifier is absent or empty (JS falsiness of `dataset.quizId`) or the
total is zero; otherwise install the handlers and issue the fetch,
starting in the loading phase.  The initial visibility of the Submit
button comes from the page markup, which is not part of this repository;
Modelled from the spec: "Next is hidden at the last index, replaced by
Submit" (§4.1), so before the first render the Submit button is hidden. -/
def initQuizPage (quizId : Option String) (total : Nat) (timerSeconds : Int) :
    Option QuizState :=
  match quizId with
  | none => none
  | some qid =>
    if qid = "" ∨ total = 0 then none
    else
      some
        { quizId := qid
          questions := []
          currentIndex := 0
          answers := []
          timerSeconds := timerSeconds
          timerActive := false
          phase := .loading
          prevDisabled := false
          nextVisible := true
          submitVisible := false
          placeholder := false
          displayText := none
          lastShown := none
          urgent := false
          submissions := []
          tickSubmits := 0 }

/-- Run a sequence of events. -/
def run (s : QuizState) (evs : List Event) : QuizState :=
  evs.foldl (fun t e => step e t) s

theorem run_nil (s : QuizState) : run s [] = s := rfl

theorem run_cons (s : QuizState) (e : Event) (evs : List Event) :
    run s (e :: evs) = run (step e s) evs := rfl

/-! ## Invariants of the quiz machine -/

theorem renderQuestion_of_lt (s : QuizState) (h : s.currentIndex < s.questions.length) :
    renderQuestion s =
      { s with
        placeholder := false
        prevDisabled := decide (s.currentIndex = 0)
        nextVisible := decide (s.currentIndex + 1 < s.questions.length)
        submitVisible := decide (s.currentIndex = s.questions.length - 1) } := by
  unfold renderQuestion
  rw [List.get?_eq_get h]

/-- State invariant of the active phase: the question list is the one
fetched, the index is in range, and the three nav controls reflect the
index exactly as `renderQuestion` last wrote them. -/
def ActiveInv (qs : List Question) (s : QuizState) : Prop :=
  s.phase = .active ∧ s.questions = qs ∧ s.currentIndex < qs.length ∧
    s.prevDisabled = decide (s.currentIndex = 0) ∧
    s.nextVisible = decide (s.currentIndex + 1 < qs.length) ∧
    s.submitVisible = decide (s.currentIndex = qs.length - 1)

theorem step_activeInv (qs : List Question) (e : Event) (s : QuizState)
    (h : ActiveInv qs s) : ActiveInv qs (step e s) := by
  obtain ⟨hph, hqs, hidx, hp, hn, hsub⟩ := h
  cases e with
  | fetchOk d =>
    simp only [step, hph]
    exact ⟨hph, hqs, hidx, hp, hn, hsub⟩
  | fetchFail =>
    simp only [step, hph]
    exact ⟨hph, hqs, hidx, hp, hn, hsub⟩
  | clickPrev =>
    by_cases h0 : 0 < s.currentIndex
    · have hlt : ({ s with currentIndex := s.currentIndex - 1 } : QuizState).currentIndex <
          ({ s with currentIndex := s.currentIndex - 1 } : QuizState).questions.length := by
        simp only [hqs]; omega
      simp only [step, if_pos h0, renderQuestion_of_lt _ hlt]
      refine ⟨hph, hqs, by simp [hqs]; omega, rfl, by simp [hqs], by simp [hqs]⟩
    · simp only [step, if_neg h0]
      exact ⟨hph, hqs, hidx, hp, hn, hsub⟩
  | clickNext =>
    by_cases h0 : s.currentIndex + 1 < s.questions.length
    · have hlt : ({ s with currentIndex := s.currentIndex + 1 } : QuizState).currentIndex <
          ({ s with currentIndex := s.currentIndex + 1 } : QuizState).questions.length := by
        simp only [hqs] at h0 ⊢; omega
      simp only [step, if_pos h0, renderQuestion_of_lt _ hlt]
      refine ⟨hph, hqs, by simp [hqs] at h0 ⊢; omega, rfl, by simp [hqs], by simp [hqs]⟩
    · simp only [step, if_neg h0]
      exact ⟨hph, hqs, hidx, hp, hn, hsub⟩
  | clickSubmit =>
    by_cases h0 : s.submitVisible = true
    · simp only [step, if_pos h0, submitQuiz]
      exact ⟨hph, hqs, hidx, hp, hn, hsub⟩
    · simp only [step, if_neg h0]
      exact ⟨hph, hqs, hidx, hp, hn, hsub⟩
  | select v =>
    simp only [step]
    rw [if_pos hph]
    cases hq : s.questions.get? s.currentIndex with
    | none => simp only [hq]; exact ⟨hph, hqs, hidx, hp, hn, hsub⟩
    | some q =>
      simp only [hq]
      by_cases hv : v ∈ q.options
      · rw [if_pos hv]
        exact ⟨hph, hqs, hidx, hp, hn, hsub⟩
      · rw [if_neg hv]
        exact ⟨hph, hqs, hidx, hp, hn, hsub⟩
  | tick =>
    show ActiveInv qs (tickStep s)
    unfold tickStep
    by_cases ha : s.timerActive = true
    · simp only [if_pos ha]
      by_cases hz : ({ s with timerSeconds := s.timerSeconds - 1 } : QuizState).timerSeconds ≤ 0
      · simp only [if_pos hz, submitQuiz]
        exact ⟨hph, hqs, hidx, hp, hn, hsub⟩
      · simp only [if_neg hz, updateTimerDisplay]
        exact ⟨hph, hqs, hidx, hp, hn, hsub⟩
    · simp only [if_neg ha]
      exact ⟨hph, hqs, hidx, hp, hn, hsub⟩

theorem run_activeInv (qs : List Question) (evs : List Event) (s : QuizState)
    (h : ActiveInv qs s) : ActiveInv qs (run s evs) := by
  induction evs generalizing s with
  | nil => exact h
  | cons e evs ih => exact ih _ (step_activeInv qs e s h)

/-- The synchronous part of `initQuizPage` succeeds only into the loading
state with all session variables fresh. -/
theorem initQuizPage_some (qid : String) (total : Nat) (ts0 : Int) (s0 : QuizState)
    (h : initQuizPage (some qid) total ts0 = some s0) :
    s0 = { quizId := qid, questions := [], currentIndex := 0, answers := [],
           timerSeconds := ts0, timerActive := false, phase := .loading,
           prevDisabled := false, nextVisible := true, submitVisible := false,
           placeholder := false, displayText := none, lastShown := none,
           urgent := false, submissions := [], tickSubmits := 0 } := by
  simp only [initQuizPage] at h
  split at h
  · exact absurd h (by simp)
  · injection h with h'
    exact h'.symm

/-- A successful non-empty fetch renders the first question and starts the
timer, establishing the active-phase invariant. -/
theorem fetchOk_activeInv (qid : String) (total : Nat) (ts0 : Int) (qs : List Question)
    (s0 : QuizState) (hinit : initQuizPage (some qid) total ts0 = some s0)
    (hne : qs ≠ []) : ActiveInv qs (step (Event.fetchOk (some qs)) s0) := by
  rw [initQuizPage_some qid total ts0 s0 hinit]
  cases qs with
  | nil => exact absurd rfl hne
  | cons q rest =>
    refine ⟨?_, ?_, ?_, ?_, ?_, ?_⟩ <;>
      simp [step, renderQuestion, startTimer, updateTimerDisplay]

/-! ## C3: navigation -/

/-- C3: starting from a freshly loaded non-empty question list, after any
sequence of events the current index stays within `[0, length-1]`;
Previous at index 0 is a no-op and the Previous button is disabled exactly
there; a Previous/Next click away from those edges moves the index by
exactly one; at the last index the Next button is hidden (the click is a
no-op) and replaced by the Submit button. -/
theorem nav_clicks_stay_in_range (qid : String) (total : Nat) (ts0 : Int)
    (qs : List Question) (s0 : QuizState)
    (hinit : initQuizPage (some qid) total ts0 = some s0) (hne : qs ≠ [])
    (evs : List Event) :
    let s := run (step (Event.fetchOk (some qs)) s0) evs
    s.currentIndex < qs.length ∧
      (s.currentIndex = 0 → step Event.clickPrev s = s) ∧
      (0 < s.currentIndex → (step Event.clickPrev s).currentIndex = s.currentIndex - 1) ∧
      (s.currentIndex + 1 < qs.length →
        (step Event.clickNext s).currentIndex = s.currentIndex + 1) ∧
      (s.currentIndex + 1 = qs.length → step Event.clickNext s = s) ∧
      s.prevDisabled = decide (s.currentIndex = 0) ∧
      s.nextVisible = decide (s.currentIndex + 1 < qs.length) ∧
      s.submitVisible = decide (s.currentIndex = qs.length - 1) := by
  intro s
  have hinv : ActiveInv qs s :=
    run_activeInv qs evs _ (fetchOk_activeInv qid total ts0 qs s0 hinit hne)
  obtain ⟨hph, hqs, hidx, hp, hn, hsub⟩ := hinv
  refine ⟨hidx, ?_, ?_, ?_, ?_, hp, hn, hsub⟩
  · intro h0
    simp only [step, h0]
    rfl
  · intro h0
    have hlt : ({ s with currentIndex := s.currentIndex - 1 } : QuizState).currentIndex <
        ({ s with currentIndex := s.currentIndex - 1 } : QuizState).questions.length := by
      simp only [hqs]; omega
    simp only [step, if_pos h0, renderQuestion_of_lt _ hlt]
  · intro h0
    have h0' : s.currentIndex + 1 < s.questions.length := by rw [hqs]; exact h0
    have hlt : ({ s with currentIndex := s.currentIndex + 1 } : QuizState).currentIndex <
        ({ s with currentIndex := s.currentIndex + 1 } : QuizState).questions.length := by
      simp only [hqs]; omega
    simp only [step, if_pos h0', renderQuestion_of_lt _ hlt]
  · intro h0
    have h0' : ¬ s.currentIndex + 1 < s.questions.length := by rw [hqs]; omega
    simp only [step, if_neg h0']

/-- Fixed sample data for the concrete instantiations below. -/
def sampleQ1 : Question := ⟨1, "Q1", ["a", "b", "c", "d"]⟩

def sampleQ2 : Question := ⟨2, "Q2", ["e", "f", "g", "h"]⟩

/-- The state `initQuizPage` produces for quiz "quiz1" with the given
timer value. -/
def sampleInit (ts : Int) : QuizState :=
  { quizId := "quiz1", questions := [], currentIndex := 0, answers := [],
    timerSeconds := ts, timerActive := false, phase := .loading,
    prevDisabled := false, nextVisible := true, submitVisible := false,
    placeholder := false, displayText := none, lastShown := none,
    urgent := false, submissions := [], tickSubmits := 0 }

theorem nav_clicks_stay_in_range_witness :
    (run (step (Event.fetchOk (some [sampleQ1, sampleQ2])) (sampleInit 60))
        [Event.clickNext, Event.clickNext, Event.clickPrev]).currentIndex <
      [sampleQ1, sampleQ2].length :=
  (nav_clicks_stay_in_range "quiz1" 2 60 [sampleQ1, sampleQ2] (sampleInit 60)
    rfl (by decide) [Event.clickNext, Event.clickNext, Event.clickPrev]).1

/-! ## C1: submission triggers -/

theorem renderQuestion_ghost (s : QuizState) :
    (renderQuestion s).phase = s.phase ∧ (renderQuestion s).timerActive = s.timerActive ∧
      (renderQuestion s).tickSubmits = s.tickSubmits ∧
      (renderQuestion s).submissions = s.submissions ∧
      (renderQuestion s).answers = s.answers ∧
      (renderQuestion s).timerSeconds = s.timerSeconds ∧
      (renderQuestion s).displayText = s.displayText ∧
      (renderQuestion s).lastShown = s.lastShown ∧
      (renderQuestion s).urgent = s.urgent ∧
      (renderQuestion s).questions = s.questions ∧
      (renderQuestion s).currentIndex = s.currentIndex := by
  unfold renderQuestion
  cases s.questions.get? s.currentIndex <;>
    exact ⟨rfl, rfl, rfl, rfl, rfl, rfl, rfl, rfl, rfl, rfl, rfl⟩

/-- Invariant behind the timer-side submit-once guarantee: the interval
fires a submission at most once because expiry clears the interval, and
the interval only exists once the page left the loading phase. -/
def TickInv (s : QuizState) : Prop :=
  (s.phase = .loading → s.timerActive = false ∧ s.tickSubmits = 0) ∧
    s.tickSubmits ≤ 1 ∧ (s.timerActive = true → s.tickSubmits = 0)

theorem step_tickInv (e : Event) (s : QuizState) (h : TickInv s) : TickInv (step e s) := by
  obtain ⟨hl, hle, ha⟩ := h
  cases e with
  | fetchOk d =>
    simp only [step]
    by_cases hph : s.phase = Phase.loading
    · obtain ⟨hta, hts⟩ := hl hph
      rw [if_pos hph]
      by_cases hemp : (d.getD []).isEmpty = true
      · rw [if_pos hemp]
        exact ⟨fun _ => ⟨hta, hts⟩, hle, fun _ => hts⟩
      · rw [if_neg hemp]
        obtain ⟨hg1, hg2, hg3, _⟩ :=
          renderQuestion_ghost { s with questions := d.getD [], phase := Phase.active }
        refine ⟨?_, ?_, ?_⟩
        · intro hc
          rw [show (startTimer (renderQuestion
              { s with questions := d.getD [], phase := Phase.active })).phase =
              (renderQuestion { s with questions := d.getD [], phase := Phase.active }).phase
              from rfl, hg1] at hc
          simp at hc
        · rw [show (startTimer (renderQuestion
              { s with questions := d.getD [], phase := Phase.active })).tickSubmits =
              (renderQuestion { s with questions := d.getD [], phase := Phase.active }).tickSubmits
              from rfl, hg3]
          exact Nat.le_trans (Nat.le_of_eq hts) (Nat.zero_le 1)
        · intro _
          rw [show (startTimer (renderQuestion
              { s with questions := d.getD [], phase := Phase.active })).tickSubmits =
              (renderQuestion { s with questions := d.getD [], phase := Phase.active }).tickSubmits
              from rfl, hg3]
          exact hts
    · rw [if_neg hph]
      exact ⟨hl, hle, ha⟩
  | fetchFail =>
    simp only [step]
    by_cases hph : s.phase = Phase.loading
    · obtain ⟨hta, hts⟩ := hl hph
      rw [if_pos hph]
      exact ⟨fun _ => ⟨hta, hts⟩, hle, fun _ => hts⟩
    · rw [if_neg hph]
      exact ⟨hl, hle, ha⟩
  | clickPrev =>
    simp only [step]
    by_cases h0 : 0 < s.currentIndex
    · rw [if_pos h0]
      obtain ⟨hg1, hg2, hg3, _⟩ := renderQuestion_ghost { s with currentIndex := s.currentIndex - 1 }
      rw [TickInv, hg1, hg2, hg3]
      exact ⟨hl, hle, ha⟩
    · rw [if_neg h0]
      exact ⟨hl, hle, ha⟩
  | clickNext =>
    simp only [step]
    by_cases h0 : s.currentIndex + 1 < s.questions.length
    · rw [if_pos h0]
      obtain ⟨hg1, hg2, hg3, _⟩ := renderQuestion_ghost { s with currentIndex := s.currentIndex + 1 }
      rw [TickInv, hg1, hg2, hg3]
      exact ⟨hl, hle, ha⟩
    · rw [if_neg h0]
      exact ⟨hl, hle, ha⟩
  | clickSubmit =>
    simp only [step]
    by_cases h0 : s.submitVisible = true
    · rw [if_pos h0]
      exact ⟨hl, hle, ha⟩
    · rw [if_neg h0]
      exact ⟨hl, hle, ha⟩
  | select v =>
    simp only [step]
    by_cases hph : s.phase = Phase.active
    · rw [if_pos hph]
      cases hq : s.questions.get? s.currentIndex with
      | none => simp only [hq]; exact ⟨hl, hle, ha⟩
      | some q =>
        simp only [hq]
        by_cases hv : v ∈ q.options
        · rw [if_pos hv]
          exact ⟨hl, hle, ha⟩
        · rw [if_neg hv]
          exact ⟨hl, hle, ha⟩
    · rw [if_neg hph]
      exact ⟨hl, hle, ha⟩
  | tick =>
    show TickInv (tickStep s)
    unfold tickStep
    by_cases hact : s.timerActive = true
    · rw [if_pos hact]
      have hts := ha hact
      by_cases hz : ({ s with timerSeconds := s.timerSeconds - 1 } : QuizState).timerSeconds ≤ 0
      · rw [if_pos hz]
        refine ⟨?_, by simp [submitQuiz, hts], by simp [submitQuiz]⟩
        intro hc
        simp only [submitQuiz] at hc
        obtain ⟨hta, _⟩ := hl hc
        exact absurd (hta ▸ hact) (by decide)
      · rw [if_neg hz]
        refine ⟨?_, by simp [updateTimerDisplay]; omega, fun _ => by simp [updateTimerDisplay, hts]⟩
        intro hc
        obtain ⟨hta, _⟩ := hl hc
        exact absurd (hta ▸ hact) (by decide)
    · rw [if_neg hact]
      exact ⟨hl, hle, ha⟩

theorem run_tickInv (evs : List Event) (s : QuizState) (h : TickInv s) :
    TickInv (run s evs) := by
  induction evs generalizing s with
  | nil => exact h
  | cons e evs ih => exact ih _ (step_tickInv e s h)

/-- C1 (amended): the timer triggers a submission at most once per session
-- expiry clears the interval and later ticks are ignored -- but there is
no guard against duplicate explicit triggers (see the counterexample). -/
theorem tick_submission_at_most_once (qid : String) (total : Nat) (ts0 : Int)
    (s0 : QuizState) (hinit : initQuizPage (some qid) total ts0 = some s0)
    (evs : List Event) :
    let s := run s0 evs
    s.tickSubmits ≤ 1 ∧
      (s.timerActive = false → step Event.tick s = s) ∧
      (s.timerActive = true → s.timerSeconds - 1 ≤ 0 →
        (step Event.tick s).timerActive = false) := by
  intro s
  have hinv : TickInv s := by
    apply run_tickInv
    rw [initQuizPage_some qid total ts0 s0 hinit]
    exact ⟨fun _ => ⟨rfl, rfl⟩, Nat.zero_le 1, fun _ => rfl⟩
  refine ⟨hinv.2.1, ?_, ?_⟩
  · intro hact
    show tickStep s = s
    unfold tickStep
    rw [hact]
    rfl
  · intro hact hz
    show (tickStep s).timerActive = false
    unfold tickStep
    rw [if_pos hact, if_pos hz]
    simp [submitQuiz]

theorem tick_submission_at_most_once_witness :
    (run (sampleInit 1) [Event.fetchOk (some [sampleQ1]), Event.clickSubmit,
      Event.tick]).tickSubmits ≤ 1 :=
  (tick_submission_at_most_once "quiz1" 1 1 (sampleInit 1) rfl
    [Event.fetchOk (some [sampleQ1]), Event.clickSubmit, Event.tick]).1

/-- C1 counterexample: in a 1-question session with 1 second on the clock,
an explicit Submit click followed by the timer expiring sends TWO requests
to `/submit` -- there is no idempotent guard in `submitQuiz`, a Submit
click neither clears the interval nor sets a flag. -/
theorem submission_not_once_counterexample :
    initQuizPage (some "quiz1") 1 1 = some (sampleInit 1) ∧
      (run (sampleInit 1) [Event.fetchOk (some [sampleQ1]), Event.clickSubmit,
        Event.tick]).submissions.length = 2 := by
  exact ⟨rfl, by decide⟩

/-! ## C2: failed or empty load is terminal -/

/-- A fetch resolution that would activate the quiz: a `questions` array
that is present, well-formed and non-empty. -/
def isGoodFetch : Event → Bool
  | .fetchOk (some (_ :: _)) => true
  | _ => false

/-- The resolution (either way) of the question fetch. -/
def isFetchResolution : Event → Bool
  | .fetchOk _ => true
  | .fetchFail => true
  | _ => false

/-- Invariant of a session whose fetch has not succeeded (still loading,
or terminal load failure): no timer, no submission ever sent, Submit
hidden, nothing rendered, and in the failure phase the placeholder
message is up. -/
def ErrInv (s : QuizState) : Prop :=
  (s.phase = .loading ∨ s.phase = .errorState) ∧ s.timerActive = false ∧
    s.submissions = [] ∧ s.submitVisible = false ∧ s.currentIndex = 0 ∧
    s.questions = [] ∧ s.lastShown = none ∧
    (s.phase = .errorState → s.placeholder = true)

theorem badFetch_getD (d : Option (List Question))
    (h : isGoodFetch (Event.fetchOk d) = false) : d.getD [] = [] := by
  cases d with
  | none => rfl
  | some qs =>
    cases qs with
    | nil => rfl
    | cons q rest => simp [isGoodFetch] at h

theorem step_errInv (e : Event) (s : QuizState) (hbad : isGoodFetch e = false)
    (h : ErrInv s) : ErrInv (step e s) := by
  obtain ⟨hph, hta, hsubs, hsv, hidx, hq, hls, hpl⟩ := h
  cases e with
  | fetchOk d =>
    have hd : d.getD [] = [] := badFetch_getD d hbad
    simp only [step]
    by_cases hl : s.phase = Phase.loading
    · rw [if_pos hl, hd]
      exact ⟨Or.inr rfl, hta, hsubs, hsv, hidx, rfl, hls, fun _ => rfl⟩
    · rw [if_neg hl]
      exact ⟨hph, hta, hsubs, hsv, hidx, hq, hls, hpl⟩
  | fetchFail =>
    simp only [step]
    by_cases hl : s.phase = Phase.loading
    · rw [if_pos hl]
      exact ⟨Or.inr rfl, hta, hsubs, hsv, hidx, hq, hls, fun _ => rfl⟩
    · rw [if_neg hl]
      exact ⟨hph, hta, hsubs, hsv, hidx, hq, hls, hpl⟩
  | clickPrev =>
    have : ¬ 0 < s.currentIndex := by omega
    simp only [step, if_neg this]
    exact ⟨hph, hta, hsubs, hsv, hidx, hq, hls, hpl⟩
  | clickNext =>
    have : ¬ s.currentIndex + 1 < s.questions.length := by rw [hq]; simp
    simp only [step, if_neg this]
    exact ⟨hph, hta, hsubs, hsv, hidx, hq, hls, hpl⟩
  | clickSubmit =>
    have : ¬ s.submitVisible = true := by rw [hsv]; simp
    simp only [step, if_neg this]
    exact ⟨hph, hta, hsubs, hsv, hidx, hq, hls, hpl⟩
  | select v =>
    have : ¬ s.phase = Phase.active := by
      rcases hph with h1 | h1 <;> rw [h1] <;> decide
    simp only [step, if_neg this]
    exact ⟨hph, hta, hsubs, hsv, hidx, hq, hls, hpl⟩
  | tick =>
    show ErrInv (tickStep s)
    unfold tickStep
    rw [hta]
    simp only [Bool.false_eq_true, if_false]
    exact ⟨hph, hta, hsubs, hsv, hidx, hq, hls, hpl⟩

theorem run_errInv (evs : List Event) (s : QuizState)
    (hbad : ∀ e ∈ evs, isGoodFetch e = false) (h : ErrInv s) : ErrInv (run s evs) := by
  induction evs generalizing s with
  | nil => exact h
  | cons e evs ih =>
    exact ih _ (fun e' he' => hbad e' (List.mem_cons_of_mem e he'))
      (step_errInv e s (hbad e (List.mem_cons_self e evs)) h)

theorem step_err_phase (e : Event) (s : QuizState) (hbad : isGoodFetch e = false)
    (h : ErrInv s) (hph : s.phase = Phase.errorState) :
    (step e s).phase = Phase.errorState := by
  obtain ⟨_, hta, hsubs, hsv, hidx, hq, hls, hpl⟩ := h
  cases e with
  | fetchOk d =>
    have hl : ¬ s.phase = Phase.loading := by rw [hph]; decide
    simp only [step, if_neg hl]
    exact hph
  | fetchFail =>
    have hl : ¬ s.phase = Phase.loading := by rw [hph]; decide
    simp only [step, if_neg hl]
    exact hph
  | clickPrev =>
    have : ¬ 0 < s.currentIndex := by omega
    simp only [step, if_neg this]
    exact hph
  | clickNext =>
    have : ¬ s.currentIndex + 1 < s.questions.length := by rw [hq]; simp
    simp only [step, if_neg this]
    exact hph
  | clickSubmit =>
    have : ¬ s.submitVisible = true := by rw [hsv]; simp
    simp only [step, if_neg this]
    exact hph
  | select v =>
    have : ¬ s.phase = Phase.active := by rw [hph]; decide
    simp only [step, if_neg this]
    exact hph
  | tick =>
    show (tickStep s).phase = Phase.errorState
    unfold tickStep
    rw [hta]
    simp only [Bool.false_eq_true, if_false]
    exact hph

theorem run_err_phase (evs : List Event) (s : QuizState)
    (hbad : ∀ e ∈ evs, isGoodFetch e = false) (h : ErrInv s)
    (hph : s.phase = Phase.errorState) : (run s evs).phase = Phase.errorState := by
  induction evs generalizing s with
  | nil => exact hph
  | cons e evs ih =>
    exact ih _ (fun e' he' => hbad e' (List.mem_cons_of_mem e he'))
      (step_errInv e s (hbad e (List.mem_cons_self e evs)) h)
      (step_err_phase e s (hbad e (List.mem_cons_self e evs)) h hph)

theorem step_fetch_to_err (e : Event) (s : QuizState) (hbad : isGoodFetch e = false)
    (hfr : isFetchResolution e = true) (h : ErrInv s) :
    (step e s).phase = Phase.errorState := by
  have hph := h.1
  rcases hph with hl | he
  · cases e with
    | fetchOk d =>
      have hd : d.getD [] = [] := badFetch_getD d hbad
      simp only [step, if_pos hl, hd]
      rfl
    | fetchFail =>
      simp only [step, if_pos hl]
    | clickPrev => exact absurd hfr (by decide)
    | clickNext => exact absurd hfr (by decide)
    | clickSubmit => exact absurd hfr (by decide)
    | select v => exact nomatch hfr
    | tick => exact absurd hfr (by decide)
  · exact step_err_phase e s hbad h he

theorem run_fetch_to_err (evs : List Event) (s : QuizState)
    (hbad : ∀ e ∈ evs, isGoodFetch e = false) (h : ErrInv s)
    (hfr : ∃ e ∈ evs, isFetchResolution e = true) :
    (run s evs).phase = Phase.errorState := by
  induction evs generalizing s with
  | nil => exact absurd hfr (by simp)
  | cons e evs ih =>
    have hbad' : ∀ e' ∈ evs, isGoodFetch e' = false :=
      fun e' he' => hbad e' (List.mem_cons_of_mem e he')
    have hinv' : ErrInv (step e s) := step_errInv e s (hbad e (List.mem_cons_self e evs)) h
    by_cases hfe : isFetchResolution e = true
    · exact run_err_phase evs _ hbad' hinv'
        (step_fetch_to_err e s (hbad e (List.mem_cons_self e evs)) hfe h)
    · rcases hfr with ⟨e', he', hfr'⟩
      rcases List.mem_cons.mp he' with rfl | hmem
      · exact absurd hfr' hfe
      · exact ih _ hbad' hinv' ⟨e', hmem, hfr'⟩

/-- C2: initialization is a no-op when the quiz identifier is missing or
empty or the total is zero; and in a session whose fetch never succeeds
(failure, or an empty or malformed question list), no sequence of events
ever starts the timer, ever sends a submission, or ever writes the timer
display -- and once the fetch resolves, the terminal placeholder is up. -/
theorem failed_load_renders_placeholder_only (qid : String) (total : Nat) (ts0 : Int)
    (s0 : QuizState) (hinit : initQuizPage (some qid) total ts0 = some s0)
    (evs : List Event) (hbad : ∀ e ∈ evs, isGoodFetch e = false) :
    (initQuizPage none total ts0 = none ∧ initQuizPage (some "") total ts0 = none ∧
      initQuizPage (some qid) 0 ts0 = none) ∧
      (run s0 evs).timerActive = false ∧ (run s0 evs).submissions = [] ∧
      (run s0 evs).lastShown = none ∧
      ((∃ e ∈ evs, isFetchResolution e = true) → (run s0 evs).placeholder = true) := by
  have h0 : ErrInv s0 := by
    rw [initQuizPage_some qid total ts0 s0 hinit]
    exact ⟨Or.inl rfl, rfl, rfl, rfl, rfl, rfl, rfl, fun hc => nomatch hc⟩
  have hrun : ErrInv (run s0 evs) := run_errInv evs s0 hbad h0
  obtain ⟨_, hta, hsubs, _, _, _, hls, hpl⟩ := hrun
  refine ⟨⟨rfl, rfl, by simp [initQuizPage]⟩, hta, hsubs, hls, ?_⟩
  intro hfr
  exact hpl (run_fetch_to_err evs s0 hbad h0 hfr)

theorem failed_load_renders_placeholder_only_witness :
    (run (sampleInit 60) [Event.fetchFail, Event.tick, Event.clickSubmit]).submissions
      = [] :=
  (failed_load_renders_placeholder_only "quiz1" 2 60 (sampleInit 60) rfl
    [Event.fetchFail, Event.tick, Event.clickSubmit] (by decide)).2.2.1

/-! ## C8: urgent timer styling is permanent -/

theorem renderQuestion_urgent (s : QuizState) : (renderQuestion s).urgent = s.urgent := by
  unfold renderQuestion
  cases s.questions.get? s.currentIndex <;> rfl

theorem updateTimerDisplay_urgent_mono (s : QuizState) (h : s.urgent = true) :
    (updateTimerDisplay s).urgent = true := by
  show (if s.timerSeconds < 30 then true else s.urgent) = true
  rw [h, ite_self]

theorem step_urgent_mono (e : Event) (s : QuizState) (h : s.urgent = true) :
    (step e s).urgent = true := by
  cases e with
  | fetchOk d =>
    simp only [step]
    by_cases hl : s.phase = Phase.loading
    · rw [if_pos hl]
      by_cases hemp : (d.getD []).isEmpty = true
      · rw [if_pos hemp]; exact h
      · rw [if_neg hemp]
        show (updateTimerDisplay
          (renderQuestion { s with questions := d.getD [], phase := Phase.active })).urgent = true
        exact updateTimerDisplay_urgent_mono _
          ((renderQuestion_urgent { s with questions := d.getD [], phase := Phase.active }).trans h)
    · rw [if_neg hl]; exact h
  | fetchFail =>
    simp only [step]
    by_cases hl : s.phase = Phase.loading
    · rw [if_pos hl]; exact h
    · rw [if_neg hl]; exact h
  | clickPrev =>
    simp only [step]
    by_cases h0 : 0 < s.currentIndex
    · rw [if_pos h0]
      exact (renderQuestion_urgent { s with currentIndex := s.currentIndex - 1 }).trans h
    · rw [if_neg h0]; exact h
  | clickNext =>
    simp only [step]
    by_cases h0 : s.currentIndex + 1 < s.questions.length
    · rw [if_pos h0]
      exact (renderQuestion_urgent { s with currentIndex := s.currentIndex + 1 }).trans h
    · rw [if_neg h0]; exact h
  | clickSubmit =>
    simp only [step]
    by_cases h0 : s.submitVisible = true
    · rw [if_pos h0]; exact h
    · rw [if_neg h0]; exact h
  | select v =>
    simp only [step]
    by_cases hph : s.phase = Phase.active
    · rw [if_pos hph]
      cases hq : s.questions.get? s.currentIndex with
      | none => simp only [hq]; exact h
      | some q =>
        simp only [hq]
        by_cases hv : v ∈ q.options
        · rw [if_pos hv]; exact h
        · rw [if_neg hv]; exact h
    · rw [if_neg hph]; exact h
  | tick =>
    show (tickStep s).urgent = true
    unfold tickStep
    by_cases hact : s.timerActive = true
    · rw [if_pos hact]
      by_cases hz : ({ s with timerSeconds := s.timerSeconds - 1 } : QuizState).timerSeconds ≤ 0
      · rw [if_pos hz]; exact h
      · rw [if_neg hz]
        exact updateTimerDisplay_urgent_mono _ h
    · rw [if_neg hact]; exact h

theorem run_urgent_mono (evs : List Event) (s : QuizState) (h : s.urgent = true) :
    (run s evs).urgent = true := by
  induction evs generalizing s with
  | nil => exact h
  | cons e evs ih => exact ih _ (step_urgent_mono e s h)

/-- C8: once the urgent styling is applied it survives every later event
of the session (no code path removes it, even if the remaining value were
to be 30 or more again), and a tick that leaves a positive remaining value
below 30 applies it. -/
theorem urgent_style_never_reverted :
    (∀ (s : QuizState) (evs : List Event), s.urgent = true → (run s evs).urgent = true) ∧
      (∀ s : QuizState, s.timerActive = true → 0 < s.timerSeconds - 1 →
        s.timerSeconds - 1 < 30 → (step Event.tick s).urgent = true) := by
  constructor
  · exact fun s evs h => run_urgent_mono evs s h
  · intro s hact hpos hlt
    show (tickStep s).urgent = true
    unfold tickStep
    rw [if_pos hact, if_neg (show ¬ ({ s with timerSeconds := s.timerSeconds - 1 } :
      QuizState).timerSeconds ≤ 0 by show ¬ s.timerSeconds - 1 ≤ 0; omega)]
    show (if s.timerSeconds - 1 < 30 then true else s.urgent) = true
    rw [if_pos hlt]

theorem urgent_style_never_reverted_witness :
    (run (run (sampleInit 20) [Event.fetchOk (some [sampleQ1])]) [Event.tick]).urgent
      = true :=
  urgent_style_never_reverted.1 (run (sampleInit 20) [Event.fetchOk (some [sampleQ1])])
    [Event.tick] (by decide)

/-! ## C10: the displayed time never reaches zero -/

/-- Invariant tying the timer display to positive remaining values: while
loading nothing has been displayed and the configured duration is intact,
and every value ever rendered into the timer element is at least 1. -/
def ShownInv (ts0 : Int) (s : QuizState) : Prop :=
  (s.phase = .loading → s.timerSeconds = ts0 ∧ s.lastShown = none ∧ s.timerActive = false) ∧
    (∀ v, s.lastShown = some v → 1 ≤ v ∧ s.displayText = some (formatDuration v))

theorem renderQuestion_shown (s : QuizState) :
    (renderQuestion s).lastShown = s.lastShown ∧
      (renderQuestion s).displayText = s.displayText ∧
      (renderQuestion s).timerSeconds = s.timerSeconds := by
  unfold renderQuestion
  cases s.questions.get? s.currentIndex <;> exact ⟨rfl, rfl, rfl⟩

theorem step_shownInv (ts0 : Int) (hpos : 1 ≤ ts0) (e : Event) (s : QuizState)
    (h : ShownInv ts0 s) : ShownInv ts0 (step e s) := by
  obtain ⟨hl, hshown⟩ := h
  cases e with
  | fetchOk d =>
    simp only [step]
    by_cases hph : s.phase = Phase.loading
    · obtain ⟨hts, hls, hta⟩ := hl hph
      rw [if_pos hph]
      by_cases hemp : (d.getD []).isEmpty = true
      · rw [if_pos hemp]
        exact ⟨fun _ => ⟨hts, hls, hta⟩, hshown⟩
      · rw [if_neg hemp]
        constructor
        · intro hc
          rw [show (startTimer (renderQuestion
              { s with questions := d.getD [], phase := Phase.active })).phase =
              (renderQuestion { s with questions := d.getD [], phase := Phase.active }).phase
              from rfl, (renderQuestion_ghost _).1] at hc
          simp at hc
        · intro v hv
          have hv' : s.timerSeconds = v := by
            rw [show (startTimer (renderQuestion
                { s with questions := d.getD [], phase := Phase.active })).lastShown =
                some (renderQuestion
                  { s with questions := d.getD [], phase := Phase.active }).timerSeconds
                from rfl, (renderQuestion_shown _).2.2] at hv
            injection hv with hv
          refine ⟨by omega, ?_⟩
          show some (formatDuration (renderQuestion
            { s with questions := d.getD [], phase := Phase.active }).timerSeconds) =
            some (formatDuration v)
          rw [(renderQuestion_shown _).2.2]
          show some (formatDuration s.timerSeconds) = some (formatDuration v)
          rw [hv']
    · rw [if_neg hph]
      exact ⟨hl, hshown⟩
  | fetchFail =>
    simp only [step]
    by_cases hph : s.phase = Phase.loading
    · obtain ⟨hts, hls, hta⟩ := hl hph
      rw [if_pos hph]
      exact ⟨fun _ => ⟨hts, hls, hta⟩, hshown⟩
    · rw [if_neg hph]
      exact ⟨hl, hshown⟩
  | clickPrev =>
    simp only [step]
    by_cases h0 : 0 < s.currentIndex
    · rw [if_pos h0]
      obtain ⟨hr1, hr2, hr3⟩ := renderQuestion_shown { s with currentIndex := s.currentIndex - 1 }
      refine ⟨?_, ?_⟩
      · intro hc
        rw [(renderQuestion_ghost _).1] at hc
        obtain ⟨hts, hls, hta⟩ := hl hc
        refine ⟨?_, ?_, ?_⟩
        · rw [hr3]; exact hts
        · rw [hr1]; exact hls
        · rw [(renderQuestion_ghost _).2.1]; exact hta
      · intro v hv
        rw [hr1] at hv
        obtain ⟨h1, h2⟩ := hshown v hv
        exact ⟨h1, by rw [hr2]; exact h2⟩
    · rw [if_neg h0]
      exact ⟨hl, hshown⟩
  | clickNext =>
    simp only [step]
    by_cases h0 : s.currentIndex + 1 < s.questions.length
    · rw [if_pos h0]
      obtain ⟨hr1, hr2, hr3⟩ := renderQuestion_shown { s with currentIndex := s.currentIndex + 1 }
      refine ⟨?_, ?_⟩
      · intro hc
        rw [(renderQuestion_ghost _).1] at hc
        obtain ⟨hts, hls, hta⟩ := hl hc
        refine ⟨?_, ?_, ?_⟩
        · rw [hr3]; exact hts
        · rw [hr1]; exact hls
        · rw [(renderQuestion_ghost _).2.1]; exact hta
      · intro v hv
        rw [hr1] at hv
        obtain ⟨h1, h2⟩ := hshown v hv
        exact ⟨h1, by rw [hr2]; exact h2⟩
    · rw [if_neg h0]
      exact ⟨hl, hshown⟩
  | clickSubmit =>
    simp only [step]
    by_cases h0 : s.submitVisible = true
    · rw [if_pos h0]
      exact ⟨hl, hshown⟩
    · rw [if_neg h0]
      exact ⟨hl, hshown⟩
  | select v =>
    simp only [step]
    by_cases hph : s.phase = Phase.active
    · rw [if_pos hph]
      cases hq : s.questions.get? s.currentIndex with
      | none => simp only [hq]; exact ⟨hl, hshown⟩
      | some q =>
        simp only [hq]
        by_cases hv : v ∈ q.options
        · rw [if_pos hv]
          exact ⟨hl, hshown⟩
        · rw [if_neg hv]
          exact ⟨hl, hshown⟩
    · rw [if_neg hph]
      exact ⟨hl, hshown⟩
  | tick =>
    show ShownInv ts0 (tickStep s)
    unfold tickStep
    by_cases hact : s.timerActive = true
    · rw [if_pos hact]
      by_cases hz : ({ s with timerSeconds := s.timerSeconds - 1 } : QuizState).timerSeconds ≤ 0
      · rw [if_pos hz]
        refine ⟨?_, fun v hv => hshown v hv⟩
        intro hc
        simp only [submitQuiz] at hc
        obtain ⟨_, _, hta⟩ := hl hc
        exact absurd (hta ▸ hact) (by decide)
      · rw [if_neg hz]
        refine ⟨?_, ?_⟩
        · intro hc
          obtain ⟨_, _, hta⟩ := hl hc
          exact absurd (hta ▸ hact) (by decide)
        · intro v hv
          have hz' : ¬ s.timerSeconds - 1 ≤ 0 := hz
          have hv' : s.timerSeconds - 1 = v := by
            rw [show (updateTimerDisplay ({ s with timerSeconds := s.timerSeconds - 1 } :
                QuizState)).lastShown = some (s.timerSeconds - 1) from rfl] at hv
            injection hv with hv
          refine ⟨by omega, ?_⟩
          show some (formatDuration (s.timerSeconds - 1)) = some (formatDuration v)
          rw [hv']
    · rw [if_neg hact]
      exact ⟨hl, hshown⟩

theorem run_shownInv (ts0 : Int) (hpos : 1 ≤ ts0) (evs : List Event) (s : QuizState)
    (h : ShownInv ts0 s) : ShownInv ts0 (run s evs) := by
  induction evs generalizing s with
  | nil => exact h
  | cons e evs ih => exact ih _ (step_shownInv ts0 hpos e s h)

/-- C10 (amended): with a positive configured duration every value
rendered into the timer display is at least 1 (never `0:00`), and on the
tick where the remaining value reaches zero or below the interval is
cleared and a submission fires with no final display update, so the
display freezes at the last positive value.  (With a non-positive
configured duration the initial render of `startTimer` does display it;
see the counterexample.) -/
theorem timer_display_stays_positive (qid : String) (total : Nat) (ts0 : Int)
    (s0 : QuizState) (hinit : initQuizPage (some qid) total ts0 = some s0)
    (hpos : 1 ≤ ts0) (evs : List Event) :
    let s := run s0 evs
    (∀ v, s.lastShown = some v → 1 ≤ v ∧ s.displayText = some (formatDuration v)) ∧
      (s.timerActive = true → s.timerSeconds - 1 ≤ 0 →
        (step Event.tick s).displayText = s.displayText ∧
          (step Event.tick s).lastShown = s.lastShown ∧
          (step Event.tick s).timerActive = false ∧
          (step Event.tick s).submissions.length = s.submissions.length + 1) := by
  intro s
  have hinv : ShownInv ts0 s := by
    apply run_shownInv ts0 hpos
    rw [initQuizPage_some qid total ts0 s0 hinit]
    exact ⟨fun _ => ⟨rfl, rfl, rfl⟩, fun v hv => nomatch hv⟩
  refine ⟨hinv.2, ?_⟩
  intro hact hz
  show (tickStep s).displayText = s.displayText ∧ (tickStep s).lastShown = s.lastShown ∧
    (tickStep s).timerActive = false ∧
    (tickStep s).submissions.length = s.submissions.length + 1
  unfold tickStep
  rw [if_pos hact, if_pos hz]
  exact ⟨rfl, rfl, rfl, by simp [submitQuiz]⟩

theorem timer_display_stays_positive_witness :
    (run (sampleInit 1) [Event.fetchOk (some [sampleQ1]), Event.tick]).lastShown
        = some 1 ∧
      (run (sampleInit 1) [Event.fetchOk (some [sampleQ1]), Event.tick]).displayText
        = some (formatDuration 1) :=
  ⟨by decide,
    ((timer_display_stays_positive "quiz1" 1 1 (sampleInit 1) rfl (by omega)
      [Event.fetchOk (some [sampleQ1]), Event.tick]).1 1 (by decide)).2⟩

/-- C10 counterexample: a session whose configured duration is 0 displays
`0:00` as soon as the questions load -- `startTimer` renders the initial
value before the first tick, so the display does show a non-positive
value. -/
theorem timer_display_zero_counterexample :
    initQuizPage (some "quiz1") 1 0 = some (sampleInit 0) ∧
      (run (sampleInit 0) [Event.fetchOk (some [sampleQ1])]).displayText = some "0:00" ∧
      formatDuration 0 = "0:00" := by
  exact ⟨rfl, by decide, by decide⟩

/-! ## C4: answer recording and restoring -/

theorem renderQuestion_keeps (s : QuizState) :
    (renderQuestion s).answers = s.answers ∧ (renderQuestion s).questions = s.questions ∧
      (renderQuestion s).currentIndex = s.currentIndex := by
  unfold renderQuestion
  cases s.questions.get? s.currentIndex <;> exact ⟨rfl, rfl, rfl⟩

theorem step_nav_keeps (e : Event) (t : QuizState)
    (h : e = Event.clickPrev ∨ e = Event.clickNext) :
    (step e t).answers = t.answers ∧ (step e t).questions = t.questions := by
  rcases h with rfl | rfl
  · simp only [step]
    by_cases h0 : 0 < t.currentIndex
    · rw [if_pos h0]
      exact ⟨(renderQuestion_keeps _).1, (renderQuestion_keeps _).2.1⟩
    · rw [if_neg h0]
      exact ⟨rfl, rfl⟩
  · simp only [step]
    by_cases h0 : t.currentIndex + 1 < t.questions.length
    · rw [if_pos h0]
      exact ⟨(renderQuestion_keeps _).1, (renderQuestion_keeps _).2.1⟩
    · rw [if_neg h0]
      exact ⟨rfl, rfl⟩

theorem run_nav_keeps (navs : List Event) (t : QuizState)
    (h : ∀ e ∈ navs, e = Event.clickPrev ∨ e = Event.clickNext) :
    (run t navs).answers = t.answers ∧ (run t navs).questions = t.questions := by
  induction navs generalizing t with
  | nil => exact ⟨rfl, rfl⟩
  | cons e navs ih =>
    have h1 := step_nav_keeps e t (h e (List.mem_cons_self e navs))
    have h2 := ih (step e t) (fun e' he' => h e' (List.mem_cons_of_mem e he'))
    exact ⟨h2.1.trans h1.1, h2.2.trans h1.2⟩

/-- A radio is rendered checked when the recorded selection for the
current question is the non-empty option in question. -/
theorem radioChecked_of_lookup (t : QuizState) (q : Question) (v : String)
    (hget : t.questions.get? t.currentIndex = some q)
    (hlook : lookupAnswer t.answers q.id = some v) (hvne : v ≠ "") :
    radioChecked t v = true := by
  unfold radioChecked selectedOf
  have hget' : t.questions[t.currentIndex]? = some q := by
    rw [← List.get?_eq_getElem?]
    exact hget
  simp [hget', hlook, hvne]

/-- C4 (amended): selecting a non-empty option `v` for the current
question `q` records it with last-write-wins semantics, leaves every
other question's recorded selection untouched, and after navigating away
and back (any sequence of Previous/Next clicks returning to the same
index) the radio for `v` is rendered pre-selected.  (For the empty-string
option the recording still happens but the pre-selection is lost; see the
counterexample.) -/
theorem selection_last_write_wins (qid : String) (total : Nat) (ts0 : Int)
    (qs : List Question) (s0 : QuizState)
    (hinit : initQuizPage (some qid) total ts0 = some s0) (hne : qs ≠ [])
    (evs : List Event) (q : Question) (v : String)
    (hq : (run (step (Event.fetchOk (some qs)) s0) evs).questions.get?
        (run (step (Event.fetchOk (some qs)) s0) evs).currentIndex = some q)
    (hv : v ∈ q.options) (hvne : v ≠ "") :
    lookupAnswer (step (Event.select v) (run (step (Event.fetchOk (some qs)) s0) evs)).answers
        q.id = some v ∧
      (∀ id', id' ≠ q.id →
        lookupAnswer (step (Event.select v)
            (run (step (Event.fetchOk (some qs)) s0) evs)).answers id' =
          lookupAnswer (run (step (Event.fetchOk (some qs)) s0) evs).answers id') ∧
      radioChecked (step (Event.select v) (run (step (Event.fetchOk (some qs)) s0) evs)) v
        = true ∧
      (∀ navs : List Event, (∀ e ∈ navs, e = Event.clickPrev ∨ e = Event.clickNext) →
        (run (step (Event.select v) (run (step (Event.fetchOk (some qs)) s0) evs))
            navs).currentIndex =
          (run (step (Event.fetchOk (some qs)) s0) evs).currentIndex →
        radioChecked (run (step (Event.select v)
          (run (step (Event.fetchOk (some qs)) s0) evs)) navs) v = true) := by
  set s := run (step (Event.fetchOk (some qs)) s0) evs with hs
  have hinv : ActiveInv qs s :=
    run_activeInv qs evs _ (fetchOk_activeInv qid total ts0 qs s0 hinit hne)
  obtain ⟨hph, hqs, hidx, _, _, _⟩ := hinv
  have ht : step (Event.select v) s = { s with answers := (q.id, v) :: s.answers } := by
    simp only [step]
    rw [if_pos hph]
    simp only [hq]
    rw [if_pos hv]
  rw [ht]
  have hlook : lookupAnswer ((q.id, v) :: s.answers) q.id = some v := by
    simp [lookupAnswer]
  refine ⟨hlook, ?_, ?_, ?_⟩
  · intro id' hid'
    show lookupAnswer ((q.id, v) :: s.answers) id' = lookupAnswer s.answers id'
    simp only [lookupAnswer]
    rw [if_neg (fun hc => hid' hc.symm)]
  · have hgq : ({ s with answers := (q.id, v) :: s.answers } : QuizState).questions.get?
        ({ s with answers := (q.id, v) :: s.answers } : QuizState).currentIndex = some q := hq
    exact radioChecked_of_lookup _ q v hgq hlook hvne
  · intro navs hnav hback
    obtain ⟨hansw, hquest⟩ :=
      run_nav_keeps navs { s with answers := (q.id, v) :: s.answers } hnav
    have hgq : (run ({ s with answers := (q.id, v) :: s.answers } : QuizState)
        navs).questions.get?
        (run ({ s with answers := (q.id, v) :: s.answers } : QuizState)
          navs).currentIndex = some q := by
      rw [hquest, hback]
      exact hq
    have hlook' : lookupAnswer (run ({ s with answers := (q.id, v) :: s.answers } :
        QuizState) navs).answers q.id = some v := by
      rw [hansw]
      exact hlook
    exact radioChecked_of_lookup _ q v hgq hlook' hvne

theorem selection_last_write_wins_witness :
    lookupAnswer (step (Event.select "b")
        (run (step (Event.fetchOk (some [sampleQ1, sampleQ2])) (sampleInit 60))
          [Event.clickNext, Event.clickPrev])).answers 1 = some "b" :=
  (selection_last_write_wins "quiz1" 2 60 [sampleQ1, sampleQ2] (sampleInit 60) rfl
    (by decide) [Event.clickNext, Event.clickPrev] sampleQ1 "b" (by decide) (by decide)
    (by decide)).1

/-- Question whose first option is the empty string (legal data for the
quiz page; only the admin form forbids it). -/
def sampleQE : Question := ⟨1, "Q1", ["", "b", "c", "d"]⟩

/-- C4 counterexample: selecting the empty-string option records it
(`answers[1] = ""`), but on re-visiting the question the radio is NOT
re-shown as selected, because `renderQuestion` computes
`selected = answers[q.id] || null` and the empty string is falsy. -/
theorem selection_empty_option_counterexample :
    lookupAnswer (run (sampleInit 100) [Event.fetchOk (some [sampleQE, sampleQ2]),
        Event.select "", Event.clickNext, Event.clickPrev]).answers 1 = some "" ∧
      radioChecked (run (sampleInit 100) [Event.fetchOk (some [sampleQE, sampleQ2]),
        Event.select "", Event.clickNext, Event.clickPrev]) "" = false := by
  exact ⟨by decide, by decide⟩

/-! ## C5: submission payload entries -/

theorem objInsert_fresh (acc : List (String × String)) (k : String) (v : String)
    (h : ∀ p ∈ acc, p.1 ≠ k) : objInsert acc k v = acc ++ [(k, v)] := by
  induction acc with
  | nil => rfl
  | cons p rest ih =>
    obtain ⟨k0, v0⟩ := p
    simp only [objInsert]
    rw [if_neg (h (k0, v0) (List.mem_cons_self _ rest))]
    rw [ih (fun p' hp' => h p' (List.mem_cons_of_mem _ hp'))]
    rfl

theorem payloadAnswers_go (ans : List (Nat × String)) (qs : List Question)
    (acc : List (String × String))
    (hfresh : ∀ p ∈ acc, ∀ q ∈ qs, p.1 ≠ toString q.id)
    (hnodup : (qs.map (fun q => toString q.id)).Nodup) :
    qs.foldl
      (fun acc q =>
        match lookupAnswer ans q.id with
        | some v => if v = "" then acc else objInsert acc (toString q.id) v
        | none => acc)
      acc
    = acc ++ qs.filterMap (fun q =>
        match lookupAnswer ans q.id with
        | some v => if v = "" then none else some (toString q.id, v)
        | none => none) := by
  induction qs generalizing acc with
  | nil => simp
  | cons q qs ih =>
    have hmap : ((q :: qs).map (fun q => toString q.id)) =
        toString q.id :: qs.map (fun q => toString q.id) := rfl
    rw [hmap] at hnodup
    have hhead : toString q.id ∉ qs.map (fun q => toString q.id) :=
      (List.nodup_cons.mp hnodup).1
    have hnodup' : (qs.map (fun q => toString q.id)).Nodup :=
      (List.nodup_cons.mp hnodup).2
    rw [List.foldl_cons, List.filterMap_cons]
    cases hl : lookupAnswer ans q.id with
    | none =>
      simp only [hl]
      exact ih acc (fun p hp q' hq' => hfresh p hp q' (List.mem_cons_of_mem q hq')) hnodup'
    | some v =>
      by_cases hv : v = ""
      · simp only [hl, if_pos hv]
        exact ih acc (fun p hp q' hq' => hfresh p hp q' (List.mem_cons_of_mem q hq')) hnodup'
      · simp only [hl, if_neg hv]
        rw [objInsert_fresh acc (toString q.id) v
          (fun p hp => hfresh p hp q (List.mem_cons_self q qs))]
        rw [ih (acc ++ [(toString q.id, v)]) ?hfresh hnodup']
        · rw [List.append_assoc]
          rfl
        · intro p hp q' hq'
          rcases List.mem_append.mp hp with hmem | hmem
          · exact hfresh p hmem q' (List.mem_cons_of_mem q hq')
          · have hpq : p = (toString q.id, v) := by simpa using hmem
            rw [hpq]
            intro hc
            apply hhead
            have hc' : toString q.id = toString q'.id := hc
            rw [hc']
            exact List.mem_map_of_mem (fun q => toString q.id) hq'

theorem length_filterMap_isSome (f : Question → Option (String × String)) (l : List Question) :
    (l.filterMap f).length = (l.filter (fun a => (f a).isSome)).length := by
  induction l with
  | nil => rfl
  | cons a l ih =>
    rw [List.filterMap_cons]
    cases hfa : f a <;> simp [List.filter_cons, hfa, ih]

/-- C5 (amended): the submission payload carries the quiz identifier and
has exactly one answers entry per question whose recorded selection is a
non-empty string, and none for unanswered questions; an empty-string
selection, although recorded, is dropped by the JS truthiness test
`if (answers[q.id])` (see the counterexample). -/
theorem submit_payload_entries (s : QuizState)
    (hnodup : (s.questions.map (fun q => toString q.id)).Nodup) :
    (submitQuiz s).submissions =
        s.submissions ++ [⟨s.quizId, payloadAnswers s.questions s.answers⟩] ∧
      payloadAnswers s.questions s.answers = s.questions.filterMap (fun q =>
        match lookupAnswer s.answers q.id with
        | some v => if v = "" then none else some (toString q.id, v)
        | none => none) ∧
      (payloadAnswers s.questions s.answers).length =
        (s.questions.filter (fun q =>
          match lookupAnswer s.answers q.id with
          | some v => !(v == "")
          | none => false)).length := by
  have hchar : payloadAnswers s.questions s.answers = s.questions.filterMap (fun q =>
      match lookupAnswer s.answers q.id with
      | some v => if v = "" then none else some (toString q.id, v)
      | none => none) := by
    unfold payloadAnswers
    have := payloadAnswers_go s.answers s.questions [] (by simp) hnodup
    simpa using this
  refine ⟨rfl, hchar, ?_⟩
  rw [hchar, length_filterMap_isSome]
  congr 1
  apply List.filter_congr
  intro q _
  cases hl : lookupAnswer s.answers q.id with
  | none => simp [hl]
  | some v =>
    by_cases hv : v = ""
    · simp [hl, hv]
    · simp [hl, hv]

theorem submit_payload_entries_witness :
    (payloadAnswers
        (run (sampleInit 60) [Event.fetchOk (some [sampleQ1, sampleQ2]),
          Event.select "b", Event.clickNext]).questions
        (run (sampleInit 60) [Event.fetchOk (some [sampleQ1, sampleQ2]),
          Event.select "b", Event.clickNext]).answers).length =
      ((run (sampleInit 60) [Event.fetchOk (some [sampleQ1, sampleQ2]),
          Event.select "b", Event.clickNext]).questions.filter (fun q =>
        match lookupAnswer (run (sampleInit 60)
            [Event.fetchOk (some [sampleQ1, sampleQ2]),
              Event.select "b", Event.clickNext]).answers q.id with
        | some v => !(v == "")
        | none => false)).length :=
  (submit_payload_entries
    (run (sampleInit 60) [Event.fetchOk (some [sampleQ1, sampleQ2]),
      Event.select "b", Event.clickNext]) (by decide)).2.2

def sampleQ3 : Question := ⟨3, "Q3", ["i", "j", "k", "l"]⟩

def sampleQ4 : Question := ⟨4, "Q4", ["m", "n", "o", "p"]⟩

def sampleQ5 : Question := ⟨5, "Q5", ["q", "r", "s", "t"]⟩

/-- C5 counterexample: a 5-question session in which exactly 2 questions
have recorded selections (question 1 recorded as the empty string,
question 2 as "f") submits a payload with exactly ONE answers entry, not
two -- the empty-string selection is dropped. -/
theorem payload_drops_empty_selection_counterexample :
    lookupAnswer (run (sampleInit 1000)
        [Event.fetchOk (some [sampleQE, sampleQ2, sampleQ3, sampleQ4, sampleQ5]),
          Event.select "", Event.clickNext, Event.select "f", Event.clickNext,
          Event.clickNext, Event.clickNext, Event.clickSubmit]).answers 1 = some "" ∧
      lookupAnswer (run (sampleInit 1000)
        [Event.fetchOk (some [sampleQE, sampleQ2, sampleQ3, sampleQ4, sampleQ5]),
          Event.select "", Event.clickNext, Event.select "f", Event.clickNext,
          Event.clickNext, Event.clickNext, Event.clickSubmit]).answers 2 = some "f" ∧
      (run (sampleInit 1000)
        [Event.fetchOk (some [sampleQE, sampleQ2, sampleQ3, sampleQ4, sampleQ5]),
          Event.select "", Event.clickNext, Event.select "f", Event.clickNext,
          Event.clickNext, Event.clickNext, Event.clickSubmit]).submissions =
        [⟨"quiz1", [("2", "f")]⟩] := by
  exact ⟨by decide, by decide, by decide⟩

/-! ## Admin table controller (script.js lines 139-371)

Only the parts the claims are about are embedded: the option display cell
built by `renderTable` (line 166), the `extractOptionsFromHtml` re-parse
(lines 394-401) together with the edit-row prefill it feeds (lines
233-236), and the Save click handler's validation (lines 259-298). -/

/-- Body of a POST to `/admin/update_question`. -/
structure UpdateRequest where
  id : Nat
  subject : String
  question : String
  options : List String
  answer : String
  difficulty : String
  explanation : String
deriving DecidableEq, Repr

/-- Outcome of the Save click handler: `rejected msg` means the alert
`msg` is shown and NO network request is made (the handler returns, the
row stays in edit mode); `sent r` means the update request with body `r`
is POSTed. -/
inductive SaveOutcome
  | rejected (msg : String)
  | sent (r : UpdateRequest)
deriving DecidableEq, Repr

/-- The Save click handler installed by `onEdit` (lines 259-298): read
the draft inputs (the four option inputs in `data-idx` order), trim the
question and option values, and validate before any network call: four
options all non-empty (JS truthiness), non-empty question, and the answer
select's value must be one of the option values. -/
def saveEdit (id : Nat) (subjectVal questionRaw : String) (optVals : List String)
    (answerVal diffVal explVal : String) : SaveOutcome :=
  let newQuestion := jsTrim questionRaw
  let newOpts := optVals.map jsTrim
  if newOpts.length ≠ 4 ∨ newOpts.any (fun x => x == "") then
    .rejected "Please provide four options."
  else if newQuestion = "" then
    .rejected "Question cannot be empty."
  else if ! newOpts.contains answerVal then
    .rejected "Correct answer must match an option."
  else
    .sent ⟨id, subjectVal, newQuestion, newOpts, answerVal, diffVal, explVal⟩

/-- C6: Save validates client-side before any network call on the four
trimmed option values, the trimmed question and the chosen answer: an
empty option, an empty question, or an answer matching no option each
reject with the corresponding message and send nothing; otherwise the
update request is sent with exactly those values. -/
theorem save_validates_before_send (id : Nat)
    (subjectVal questionRaw o0 o1 o2 o3 answerVal diffVal explVal : String) :
    (([o0, o1, o2, o3].map jsTrim).any (fun x => x == "") = true →
      saveEdit id subjectVal questionRaw [o0, o1, o2, o3] answerVal diffVal explVal =
        .rejected "Please provide four options.") ∧
      (([o0, o1, o2, o3].map jsTrim).any (fun x => x == "") = false →
        jsTrim questionRaw = "" →
        saveEdit id subjectVal questionRaw [o0, o1, o2, o3] answerVal diffVal explVal =
          .rejected "Question cannot be empty.") ∧
      (([o0, o1, o2, o3].map jsTrim).any (fun x => x == "") = false →
        jsTrim questionRaw ≠ "" →
        answerVal ∉ [o0, o1, o2, o3].map jsTrim →
        saveEdit id subjectVal questionRaw [o0, o1, o2, o3] answerVal diffVal explVal =
          .rejected "Correct answer must match an option.") ∧
      (([o0, o1, o2, o3].map jsTrim).any (fun x => x == "") = false →
        jsTrim questionRaw ≠ "" →
        answerVal ∈ [o0, o1, o2, o3].map jsTrim →
        saveEdit id subjectVal questionRaw [o0, o1, o2, o3] answerVal diffVal explVal =
          .sent ⟨id, subjectVal, jsTrim questionRaw, [o0, o1, o2, o3].map jsTrim,
            answerVal, diffVal, explVal⟩) := by
  have hlen : ¬ ([o0, o1, o2, o3].map jsTrim).length ≠ 4 := by simp
  refine ⟨?_, ?_, ?_, ?_⟩
  · intro hany
    unfold saveEdit
    rw [if_pos (Or.inr hany)]
  · intro hany hq
    unfold saveEdit
    rw [if_neg (by rw [hany]; simp), if_pos hq]
  · intro hany hq hans
    have hcont : ([o0, o1, o2, o3].map jsTrim).contains answerVal = false :=
      Bool.eq_false_iff.mpr (fun hc => hans (List.elem_iff.mp hc))
    unfold saveEdit
    rw [if_neg (by rw [hany]; simp), if_neg hq, if_pos (by rw [hcont]; decide)]
  · intro hany hq hans
    have hcont : ([o0, o1, o2, o3].map jsTrim).contains answerVal = true :=
      List.elem_iff.mpr hans
    unfold saveEdit
    rw [if_neg (by rw [hany]; simp), if_neg hq, if_neg (by rw [hcont]; decide)]

theorem save_validates_before_send_witness :
    (saveEdit 7 "Physics" "Capital of France?" ["Paris", "", "London", "Rome"]
        "Paris" "Easy" "" = SaveOutcome.rejected "Please provide four options.") ∧
      (saveEdit 7 "Physics" "Capital of France?" ["Paris", "Milan", "London", "Rome"]
        "Berlin" "Easy" "" = SaveOutcome.rejected "Correct answer must match an option.") ∧
      (saveEdit 7 "Physics" "Capital of France?" ["Paris", "Berlin", "London", "Rome"]
        "Berlin" "Easy" "" = SaveOutcome.sent
          ⟨7, "Physics", "Capital of France?", ["Paris", "Berlin", "London", "Rome"],
            "Berlin", "Easy", ""⟩) :=
  ⟨(save_validates_before_send 7 "Physics" "Capital of France?" "Paris" "" "London"
      "Rome" "Paris" "Easy" "").1 (by decide),
    (save_validates_before_send 7 "Physics" "Capital of France?" "Paris" "Milan"
      "London" "Rome" "Berlin" "Easy" "").2.2.1 (by decide) (by decide) (by decide),
    (save_validates_before_send 7 "Physics" "Capital of France?" "Paris" "Berlin"
      "London" "Rome" "Berlin" "Easy" "").2.2.2 (by decide) (by decide) (by decide)⟩

/-! ## C7: the option cell round-trip -/

/-- `"ABCD"[i]` from renderTable line 166; out-of-range JS indexing gives
`undefined`, which the template literal renders as the text "undefined". -/
def abcdLetter (i : Nat) : String :=
  ["A", "B", "C", "D"].getD i "undefined"

/-- `escapeHtml` (lines 374-381): four successive `replaceAll` passes. -/
def escapeHtml (str : String) : String :=
  jsReplaceAll (jsReplaceAll (jsReplaceAll
    (jsReplaceAll str "&" "&amp;") "<" "&lt;") ">" "&gt;") "\"" "&quot;"

/-- The options display cell built by `renderTable` line 166:
each option rendered as `letter`, `") "`, escaped text, joined by
`<br>`. -/
def renderOptionsCell (options : List String) : String :=
  String.intercalate "<br>"
    (options.enum.map (fun p => abcdLetter p.1 ++ ") " ++ escapeHtml p.2))

/-- Browser text extraction performed by `extractOptionsFromHtml` lines
395-397 (`tmp.innerHTML = html; tmp.textContent`), modelled for the
markup this application generates: tags (such as `<br>`) contribute no
text and the entities produced by `escapeHtml` decode back to their
characters; everything else is literal. -/
def domTextCore : Nat → List Char → List Char
  | 0, _ => []
  | _ + 1, [] => []
  | fuel + 1, c :: rest =>
    if c = '<' then
      domTextCore fuel (((c :: rest).dropWhile (fun x => x ≠ '>')).drop 1)
    else if c = '&' then
      if List.take 4 rest = "amp;".data then '&' :: domTextCore fuel (rest.drop 4)
      else if List.take 3 rest = "lt;".data then '<' :: domTextCore fuel (rest.drop 3)
      else if List.take 3 rest = "gt;".data then '>' :: domTextCore fuel (rest.drop 3)
      else if List.take 5 rest = "quot;".data then '"' :: domTextCore fuel (rest.drop 5)
      else if List.take 4 rest = "#39;".data then
        Char.ofNat 39 :: domTextCore fuel (rest.drop 4)
      else c :: domTextCore fuel rest
    else c :: domTextCore fuel rest

def domTextOfHtml (html : String) : String :=
  ⟨domTextCore (html.data.length + 1) html.data⟩

/-- One attempted match, at the current position, of the split pattern of
line 398.  The source regex is `/\s*[A-D]KATEX_INLINE_CLOSE\s/` -- it
matches greedy whitespace, one letter A-D, the LITERAL text
"KATEX_INLINE_CLOSE" (an artifact of a mangled `\)` escape in the
checked-in file), then one whitespace character.  Greedy `\s*` needs no
backtracking here because a letter is never whitespace.  Returns the
remainder after the match. -/
def matchSplitPat (l : List Char) : Option (List Char) :=
  match l.dropWhile isJsWs with
  | c :: rest2 =>
    if 'A' ≤ c ∧ c ≤ 'D' then
      if List.take 18 rest2 = "KATEX_INLINE_CLOSE".data then
        match rest2.drop 18 with
        | w :: rest3 => if isJsWs w then some rest3 else none
        | [] => none
      else none
    else none
  | [] => none

/-- JS `text.split(pattern)`: cut at each leftmost non-overlapping match,
scanning left to right (empty pieces are kept; `filter(Boolean)` drops
them later). -/
def splitPatCore : Nat → List Char → List Char → List String
  | 0, acc, _ => [⟨acc.reverse⟩]
  | _ + 1, acc, [] => [⟨acc.reverse⟩]
  | fuel + 1, acc, c :: rest =>
    match matchSplitPat (c :: rest) with
    | some rem => ⟨acc.reverse⟩ :: splitPatCore fuel [] rem
    | none => splitPatCore fuel (c :: acc) rest

def splitPat (text : String) : List String :=
  splitPatCore (text.data.length + 1) [] text.data

def isNl (c : Char) : Bool := c = '\r' ∨ c = '\n'

/-- Index of the last newline in a whitespace run, if any. -/
def lastNlIdx (ws : List Char) : Option Nat :=
  ws.enum.foldl (fun acc p => if isNl p.2 then some p.1 else acc) none

/-- Leftmost-greedy match of the fallback split pattern `/\s*[\r\n]+/` of
line 400 at the current position: the engine maximizes `\s*`,
backtracking only until `[\r\n]+` can still match, so the match ends with
the newline run starting at the last newline of the whitespace run. -/
def matchNlPat (l : List Char) : Option (List Char) :=
  match lastNlIdx (l.takeWhile isJsWs) with
  | none => none
  | some j => some ((l.drop j).drop ((l.drop j).takeWhile isNl).length)

def splitNlCore : Nat → List Char → List Char → List String
  | 0, acc, _ => [⟨acc.reverse⟩]
  | _ + 1, acc, [] => [⟨acc.reverse⟩]
  | fuel + 1, acc, c :: rest =>
    match matchNlPat (c :: rest) with
    | some rem => ⟨acc.reverse⟩ :: splitNlCore fuel [] rem
    | none => splitNlCore fuel (c :: acc) rest

def splitNl (text : String) : List String :=
  splitNlCore (text.data.length + 1) [] text.data

/-- `s.replace(/^[A-D]KATEX_INLINE_CLOSE\s*/, "")` from line 400: strip a
leading letter A-D followed by the literal "KATEX_INLINE_CLOSE" and
optional whitespace. -/
def stripLeadLabel (s : String) : String :=
  match s.data with
  | c :: rest =>
    if ('A' ≤ c ∧ c ≤ 'D') ∧ List.take 18 rest = "KATEX_INLINE_CLOSE".data then
      ⟨(rest.drop 18).dropWhile isJsWs⟩
    else s
  | [] => s

/-- `extractOptionsFromHtml` (lines 394-401): split the cell's text on the
primary pattern; if that does not yield exactly 4 non-empty parts, fall
back to splitting on newline runs, stripping leading labels, and taking
the first 4 non-empty results. -/
def extractOptionsFromHtml (html : String) : List String :=
  let text := domTextOfHtml html
  let parts := (splitPat text).filter (fun p => p ≠ "")
  if parts.length = 4 then parts.map jsTrim
  else (((splitNl text).map stripLeadLabel).filter (fun p => p ≠ "")).take 4

/-- The four option inputs `onEdit` prefills (lines 233-236): input `i`
receives `opts[i] || ""` from the extraction result. -/
def editPrefill (cellHtml : String) : List String :=
  [(extractOptionsFromHtml cellHtml).getD 0 "",
    (extractOptionsFromHtml cellHtml).getD 1 "",
    (extractOptionsFromHtml cellHtml).getD 2 "",
    (extractOptionsFromHtml cellHtml).getD 3 ""]

/-- C7: the rendered display cell for options
`["Paris", "London", "Berlin", "Rome"]` read back through
`extractOptionsFromHtml` does NOT recover the four option strings: both
split patterns look for text that is not there (the primary pattern for
the literal "KATEX_INLINE_CLOSE", the fallback for newlines, while
`textContent` of the `<br>`-joined cell is one unbroken line), so the
whole concatenated text comes back as a single element and Edit prefills
option input A with the blob and B-D with "". -/
theorem extract_options_mismatch :
    renderOptionsCell ["Paris", "London", "Berlin", "Rome"] =
        "A) Paris<br>B) London<br>C) Berlin<br>D) Rome" ∧
      domTextOfHtml (renderOptionsCell ["Paris", "London", "Berlin", "Rome"]) =
        "A) ParisB) LondonC) BerlinD) Rome" ∧
      extractOptionsFromHtml (renderOptionsCell ["Paris", "London", "Berlin", "Rome"]) =
        ["A) ParisB) LondonC) BerlinD) Rome"] ∧
      extractOptionsFromHtml (renderOptionsCell ["Paris", "London", "Berlin", "Rome"]) ≠
        ["Paris", "London", "Berlin", "Rome"] ∧
      editPrefill (renderOptionsCell ["Paris", "London", "Berlin", "Rome"]) =
        ["A) ParisB) LondonC) BerlinD) Rome", "", "", ""] := by
  exact ⟨by decide, by decide, by decide, by decide, by decide⟩

end QuizApp
